import Mathlib

/-!
Shallow embedding of the EzAigents live agent event stream viewers,
`src/cli/agent-stream.py` (classes `AgentEventStream` and `CursesAgentStream`)
and `src/cli/agent-stream-simple.py` (class `SimpleAgentStream`).

Modelling conventions:
* Python dictionaries with counter values (`defaultdict(int)`) are association
  lists `List (String × Nat)`; reading `d[k]` is `dget` (default 0) and
  `d[k] += 1` is `dincr`.  The nested `defaultdict(lambda: defaultdict(int))`
  for `agent_stats` is `List (String × List (String × Nat))` with `d2incr`.
* An event is a Python dict with a known field set; `event.get(k)` returning
  `None` when the key is absent is modelled with `Option` fields.  The
  `payload` sub-dict is kept as an association list, and the `id` field used
  by the simple viewer for de-duplication as an optional numeric key.
* `datetime.fromisoformat(...).strftime("%H:%M:%S")`, a library call, is a
  parameter `iso : String → Option String`; `none` models the `ValueError`
  raised on a missing or unparsable timestamp.
* Terminal lines whose lengths matter (the curses `draw_ui` truncation) are
  built as `List Char`, matching Python `len` on `str` (both count Unicode
  code points); `pySlice` models Python slicing `s[:n]` including negative
  indices.
-/

namespace EzAigents

/-- Reading `d[k]` on a `defaultdict(int)`: the stored count, or 0 when the
key is absent. -/
def dget : List (String × Nat) → String → Nat
  | [], _ => 0
  | (k', v) :: rest, k => if k' = k then v else dget rest k

/-- Updating `d[k] += 1` on a `defaultdict(int)`. -/
def dincr : List (String × Nat) → String → List (String × Nat)
  | [], k => [(k, 1)]
  | (k', v) :: rest, k =>
    if k' = k then (k', v + 1) :: rest else (k', v) :: dincr rest k

/-- Updating `d[k1][k2] += 1` on a `defaultdict(lambda: defaultdict(int))`. -/
def d2incr : List (String × List (String × Nat)) → String → String →
    List (String × List (String × Nat))
  | [], k1, k2 => [(k1, [(k2, 1)])]
  | (k', v) :: rest, k1, k2 =>
    if k' = k1 then (k', dincr v k2) :: rest else (k', v) :: d2incr rest k1 k2

/-- Reading `d.get(k)` on a plain dict: `None` when the key is absent. -/
def pyGet {α : Type} : List (String × α) → String → Option α
  | [], _ => none
  | (k', v) :: rest, k => if k' = k then some v else pyGet rest k

/-- Reading `d.get(k, dflt)` on a plain dict. -/
def pyGetD {α : Type} (d : List (String × α)) (k : String) (dflt : α) : α :=
  (pyGet d k).getD dflt

/-- The module-level `AGENT_COLORS` table of `agent-stream.py`. -/
def AGENT_COLORS : List (String × String) :=
  [("openai", "\u001b[92m"), ("anthropic", "\u001b[94m"), ("google", "\u001b[93m"),
   ("cohere", "\u001b[95m"), ("mistral", "\u001b[96m"), ("deepseek", "\u001b[91m"),
   ("langchain", "\u001b[97m"), ("custom", "\u001b[90m"), ("unknown", "\u001b[37m")]

/-- The module-level `EVENT_TYPE_ICONS` table of `agent-stream.py`. -/
def EVENT_TYPE_ICONS : List (String × String) :=
  [("llm_request", "🤖"), ("llm_response", "💬"), ("tool_use", "🔧"),
   ("function_call_start", "▶️"), ("function_call_complete", "✅"),
   ("function_call_error", "❌"), ("error", "🚨"), ("token_usage", "🪙"),
   ("test", "🧪"), ("pre_tool_use", "🔨"), ("post_tool_use", "✔️"),
   ("stop", "🛑"), ("custom", "📌")]

/-- The `RESET_COLOR` escape constant. -/
def RESET_COLOR : String := "\u001b[0m"

/-- The `BOLD` escape constant. -/
def BOLD : String := "\u001b[1m"

/-- The `DIM` escape constant. -/
def DIM : String := "\u001b[2m"

/-- An event record (a JSON object on the wire).  Fields the viewers read via
`event.get(...)` are `Option`s (`none` models an absent key); `payload` is the
nested dict and `eid` the `id` field the simple viewer de-duplicates on. -/
structure Event where
  timestamp : Option String := none
  app : Option String := none
  event_type : Option String := none
  summary : Option String := none
  payload : List (String × String) := []
  eid : Option Nat := none
deriving DecidableEq, Repr

/-- Python truthiness of an optional string: `None` and `""` are falsy. -/
def truthy : Option String → Bool
  | none => false
  | some s => !(s == "")

/-- Appending to `self.events` followed by `if len(self.events) > w:
self.events.pop(0)` — the fixed-size recent-events window. -/
def pushWindow (w : Nat) (l : List Event) (e : Event) : List Event :=
  if w < (l ++ [e]).length then (l ++ [e]).drop 1 else l ++ [e]

/-- The `stats` update of `process_event` / `update_stats`:
`stats["total"] += 1` then `stats[event.get("event_type", "unknown")] += 1`. -/
def pstats (d : List (String × Nat)) (e : Event) : List (String × Nat) :=
  dincr (dincr d "total") (e.event_type.getD "unknown")

/-- The `agent_stats` update of `process_event` / `update_stats`:
`agent_stats[event.get("app", "unknown")][payload.get("agent_type", "unknown")] += 1`. -/
def pastats (a : List (String × List (String × Nat))) (e : Event) :
    List (String × List (String × Nat)) :=
  d2incr a (e.app.getD "unknown") (pyGetD e.payload "agent_type" "unknown")

/-- The mutable state of an `AgentEventStream` instance that `process_event`
touches: the recent-events buffer, the two counter dicts and the display queue. -/
structure StreamState where
  events : List Event
  stats : List (String × Nat)
  agent_stats : List (String × List (String × Nat))
  event_queue : List Event
deriving DecidableEq, Repr

/-- The state of a freshly constructed `AgentEventStream`. -/
def initStream : StreamState := ⟨[], [], [], []⟩

/-- The unguarded body of `AgentEventStream.process_event`: update the stats,
put the event on the display queue, append it to `self.events` and clip the
buffer to the last 1000 entries. -/
def accept_event (st : StreamState) (e : Event) : StreamState :=
  { events := pushWindow 1000 st.events e,
    stats := pstats st.stats e,
    agent_stats := pastats st.agent_stats e,
    event_queue := st.event_queue ++ [e] }

/-- Function `AgentEventStream.process_event`: return immediately when paused,
then apply the `filter_app` and `filter_type` guards (Python `and` with
truthiness, comparing `event.get(...)` against the filter string), then run
the accept body. -/
def process_event (fa ft : Option String) (pause : Bool) (st : StreamState)
    (e : Event) : StreamState :=
  if pause then st
  else if truthy fa ∧ e.app ≠ fa then st
  else if truthy ft ∧ e.event_type ≠ ft then st
  else accept_event st e

/-- Function `AgentEventStream.format_event`, with the library timestamp
rendering `datetime.fromisoformat(...).strftime("%H:%M:%S")` supplied as
`iso`; the result is `none` when that raises on `event.get("timestamp", "")`. -/
def format_event (iso : String → Option String) (show_details : Bool)
    (e : Event) : Option String :=
  match iso (e.timestamp.getD "") with
  | none => none
  | some ts =>
    let app := e.app.getD "unknown"
    let event_type := e.event_type.getD "unknown"
    let summary := e.summary.getD ""
    let agent_type := pyGetD e.payload "agent_type" "unknown"
    let color := pyGetD AGENT_COLORS agent_type (pyGetD AGENT_COLORS "unknown" "")
    let icon := pyGetD EVENT_TYPE_ICONS event_type "📝"
    let line := DIM ++ ts ++ RESET_COLOR ++ " " ++ color ++ BOLD ++ "[" ++ app ++
      "]" ++ RESET_COLOR ++ " " ++ icon ++ " " ++ event_type
    let line := if summary ≠ "" then line ++ " - " ++ DIM ++ summary ++ RESET_COLOR
      else line
    let line :=
      if show_details ∧ e.payload ≠ [] then
        let details := ((e.payload.take 3).filter (fun p => p.1 != "agent_type")).map
          (fun p => p.1 ++ "=" ++ p.2.take 50)
        if details ≠ [] then
          line ++ "\n    " ++ DIM ++ String.intercalate " | " details ++ RESET_COLOR
        else line
      else line
    some line

/-- A decoded WebSocket message, dispatched by `handle_message` on
`data.get("type")`: an `"init"` backfill batch, a live `"event"` (whose
`data.get("data", {})` payload is the already-defaulted event), or anything
else (ignored). -/
inductive Message where
  | init (events : List Event)
  | event (data : Event)
  | other
deriving DecidableEq, Repr

/-- Function `AgentEventStream.handle_message`. -/
def handle_message (fa ft : Option String) (pause : Bool) (st : StreamState) :
    Message → StreamState
  | .init evs => evs.foldl (process_event fa ft pause) st
  | .event d => process_event fa ft pause st d
  | .other => st

/-- An output channel of the process; `print(...)` writes to standard output. -/
inductive Chan where
  | stdout
  | stderr
deriving DecidableEq, Repr

/-- An inbound WebSocket frame: raw text that fails `json.loads`, or a decoded
message. -/
inductive Frame where
  | malformed (raw : String)
  | decoded (m : Message)
deriving Repr

/-- Projecting the decoded message out of a frame, when there is one. -/
def Frame.decodedMsg : Frame → Option Message
  | .malformed _ => none
  | .decoded m => some m

/-- The diagnostic `connect_and_stream` prints on a `json.JSONDecodeError`:
`print(f"{AGENT_COLORS['unknown']}Invalid message received{RESET_COLOR}")`,
which goes to standard output. -/
def invalidMsgLine : Chan × String :=
  (Chan.stdout, pyGetD AGENT_COLORS "unknown" "" ++ "Invalid message received" ++ RESET_COLOR)

/-- The channel `run_display_thread` prints formatted events to: `print(...)`,
i.e. standard output. -/
def displayThreadChan : Chan := Chan.stdout

/-- The state of the receive loop of `AgentEventStream.connect_and_stream`:
the stream state plus the lines it has printed, tagged with their channel. -/
structure LoopState where
  st : StreamState
  output : List (Chan × String)
deriving Repr

/-- The receive-loop state at connection time. -/
def initLoop : LoopState := ⟨initStream, []⟩

/-- One iteration of the `async for message in websocket` body of
`AgentEventStream.connect_and_stream`: `json.loads` failure prints the
diagnostic and continues; success hands the message to `handle_message`. -/
def recv_step (fa ft : Option String) (p : Bool) (ls : LoopState) :
    Frame → LoopState
  | .malformed _ => { ls with output := ls.output ++ [invalidMsgLine] }
  | .decoded m => { ls with st := handle_message fa ft p ls.st m }

/-- The receive loop of `connect_and_stream` over a sequence of inbound frames. -/
def recv_loop (fa ft : Option String) (p : Bool) (ls : LoopState)
    (frames : List Frame) : LoopState :=
  frames.foldl (recv_step fa ft p) ls

/-- The mutable state of a `CursesAgentStream` instance that its receive loop
touches. -/
structure CursesState where
  events : List Event
  stats : List (String × Nat)
  agent_stats : List (String × List (String × Nat))
deriving DecidableEq, Repr

/-- The state of a freshly constructed `CursesAgentStream`. -/
def initCurses : CursesState := ⟨[], [], []⟩

/-- Function `CursesAgentStream.update_stats`. -/
def update_stats (st : CursesState) (e : Event) : CursesState :=
  { st with stats := pstats st.stats e, agent_stats := pastats st.agent_stats e }

/-- The body of `CursesAgentStream.connect_and_stream` for a decoded `"event"`
frame: `self.events.append(event)`, `self.update_stats(event)`, then clip
`self.events` to the last 500 entries.  Note the pause flag is not consulted
here. -/
def curses_receive (st : CursesState) (e : Event) : CursesState :=
  let st1 := update_stats { st with events := st.events ++ [e] } e
  if 500 < st1.events.length then { st1 with events := st1.events.drop 1 } else st1

/-- The `color_map` dict of `CursesAgentStream.draw_ui`. -/
def color_map : List (String × Nat) :=
  [("openai", 1), ("anthropic", 2), ("google", 3), ("cohere", 4), ("mistral", 5),
   ("deepseek", 6), ("langchain", 7), ("custom", 7), ("unknown", 7)]

/-- The color selection of `draw_ui`: `color_map.get(agent_type, 7)`. -/
def cursesColor (agent_type : String) : Nat := pyGetD color_map agent_type 7

/-- Python string slicing `s[:n]` on a list of characters: a negative `n`
keeps all but the last `|n|` characters (clamped at the empty string). -/
def pySlice (s : List Char) (n : Int) : List Char :=
  if n < 0 then s.take (s.length - n.natAbs) else s.take n.toNat

/-- The per-event line built by `CursesAgentStream.draw_ui` before the final
width truncation: the timestamp (already rendered, parameter `tstr`), the app
name clipped to 20 characters, the icon and event type, then the summary
clipped to the remaining width with an ellipsis. -/
def draw_ui_line_pre (tstr : List Char) (e : Event) (width : Nat) : List Char :=
  let app := (e.app.getD "unknown").data.take 20
  let event_type := (e.event_type.getD "unknown").data
  let icon := (pyGetD EVENT_TYPE_ICONS (e.event_type.getD "unknown") "📝").data
  let line := tstr ++ " [".data ++ app ++ "] ".data ++ icon ++ " ".data ++ event_type
  let summary := (e.summary.getD "").data
  if summary ≠ [] then
    let rw : Int := (width : Int) - (line.length : Int) - 3
    let summary :=
      if (summary.length : Int) > rw then pySlice summary (rw - 3) ++ "...".data
      else summary
    line ++ " - ".data ++ summary
  else line

/-- The final truncation of `draw_ui`: a line longer than `width - 1` is cut
to `line[:width-4] + "..."`. -/
def draw_ui_line (tstr : List Char) (e : Event) (width : Nat) : List Char :=
  let line := draw_ui_line_pre tstr e width
  if (line.length : Int) > (width : Int) - 1 then
    pySlice line ((width : Int) - 4) ++ "...".data
  else line

/-- The session state of a `SimpleAgentStream`: the `seen_ids` set of
`poll_events` (kept as a duplicate-free list), the session stats and the
events printed so far. -/
structure PollState where
  seen_ids : List (Option Nat)
  stats : List (String × Nat)
  displayed : List Event
deriving DecidableEq, Repr

/-- The poll state at the start of `poll_events`. -/
def initPoll : PollState := ⟨[], [], []⟩

/-- Function `SimpleAgentStream.display_event`: parse the timestamp first
(failure propagates as an exception, modelled by `none`), then update the
session stats and print the event line. -/
def display_event (iso : String → Option String) (st : PollState) (e : Event) :
    Option PollState :=
  match iso (e.timestamp.getD "") with
  | none => none
  | some _ =>
    some { st with stats := pstats st.stats e, displayed := st.displayed ++ [e] }

/-- One fetched batch of `SimpleAgentStream.poll_events`: an event whose
`event.get('id')` is already in `seen_ids` is skipped; otherwise the id is
added, the event displayed (a timestamp parse failure aborts the rest of the
batch, the exception being caught outside the `for` loop), and the seen set is
capped at 100 entries, `pop` modelling the arbitrary element removed by
`set.pop()`. -/
def poll_batch (iso : String → Option String)
    (pop : List (Option Nat) → List (Option Nat)) :
    PollState → List Event → PollState
  | st, [] => st
  | st, e :: rest =>
    if e.eid ∈ st.seen_ids then poll_batch iso pop st rest
    else
      let seen := e.eid :: st.seen_ids
      match display_event iso { st with seen_ids := seen } e with
      | none => { st with seen_ids := seen }
      | some st1 =>
        if 100 < seen.length then
          poll_batch iso pop { st1 with seen_ids := pop seen } rest
        else poll_batch iso pop st1 rest

/-- The last `n` elements of a list, in order. -/
def lastN {α : Type} (n : Nat) (l : List α) : List α := l.drop (l.length - n)

/-- Sum of the per-category counters, i.e. of all values whose key is not
`"total"`. -/
def sumNT : List (String × Nat) → Nat
  | [] => 0
  | (k, v) :: rest => (if k = "total" then 0 else v) + sumNT rest

/-- Sum of all values of a counter dictionary. -/
def dsum : List (String × Nat) → Nat
  | [] => 0
  | (_, v) :: rest => v + dsum rest

/-- Sum of all counts nested in an `agent_stats` dictionary. -/
def sumAgent : List (String × List (String × Nat)) → Nat
  | [] => 0
  | (_, v) :: rest => dsum v + sumAgent rest

/-- An event dict with no fields at all (`{}` on the wire). -/
def evEmpty : Event := {}

/-- An event whose `event_type` is the literal string `"total"`. -/
def evT : Event := { event_type := some "total" }

/-- Concrete stand-in for the timestamp rendering: accepts exactly `"T"`. -/
def isoT : String → Option String :=
  fun s => if s = "T" then some "00:00:00" else none

/-- Concrete stand-in for the timestamp rendering that always fails. -/
def isoNone : String → Option String := fun _ => none

/-- Concrete stand-in for the arbitrary element removal of `set.pop()`. -/
def popAny : List (Option Nat) → List (Option Nat) := fun l => l.drop 1

/-- An id-less event with a parsable timestamp. -/
def en1 : Event := { timestamp := some "T" }

/-- A second id-less event with a parsable timestamp, distinguishable from
`en1` by its summary. -/
def en2 : Event := { timestamp := some "T", summary := some "second" }

/-- An event carrying the server-issued id 5. -/
def e5 : Event := { eid := some 5 }

/-- A poll state that has already seen id 5. -/
def pollSeen5 : PollState := { seen_ids := [some 5], stats := [], displayed := [] }

/-- An event from source `"A"`. -/
def eA : Event := { app := some "A" }

/-- An event from source `"B"`. -/
def eB : Event := { app := some "B" }

/-- An event whose `event_type` and `agent_type` are absent from every static
lookup table, with a timestamp `isoT` accepts. -/
def eMystery : Event :=
  { timestamp := some "T", event_type := some "mystery",
    payload := [("agent_type", "zzz")] }

/-! Counter-dictionary lemmas. -/

theorem dget_dincr_self (d : List (String × Nat)) (k : String) :
    dget (dincr d k) k = dget d k + 1 := by
  induction d with
  | nil => simp [dincr, dget]
  | cons p rest ih =>
    obtain ⟨k', v⟩ := p
    by_cases h : k' = k <;> simp [dincr, dget, h, ih]

theorem dget_dincr_ne (d : List (String × Nat)) (k' k : String) (h : k' ≠ k) :
    dget (dincr d k') k = dget d k := by
  induction d with
  | nil => simp [dincr, dget, h]
  | cons p rest ih =>
    obtain ⟨a, v⟩ := p
    by_cases ha : a = k' <;> simp [dincr, dget, ha, ih]
    · subst ha
      simp [dget, h]

theorem dget_le_dincr (d : List (String × Nat)) (k' k : String) :
    dget d k ≤ dget (dincr d k') k := by
  by_cases h : k' = k
  · subst h
    rw [dget_dincr_self]
    omega
  · rw [dget_dincr_ne d k' k h]

theorem sumNT_dincr (d : List (String × Nat)) (k : String) :
    sumNT (dincr d k) = sumNT d + (if k = "total" then 0 else 1) := by
  induction d with
  | nil => by_cases h : k = "total" <;> simp [dincr, sumNT, h]
  | cons p rest ih =>
    obtain ⟨k', v⟩ := p
    by_cases h : k' = k
    · subst h
      by_cases h2 : k' = "total" <;> simp [dincr, sumNT, h2] <;> omega
    · simp only [dincr, if_neg h, sumNT, ih]
      omega

theorem dsum_dincr (d : List (String × Nat)) (k : String) :
    dsum (dincr d k) = dsum d + 1 := by
  induction d with
  | nil => simp [dincr, dsum]
  | cons p rest ih =>
    obtain ⟨k', v⟩ := p
    by_cases h : k' = k <;> simp [dincr, dsum, h, ih] <;> omega

theorem sumAgent_d2incr (a : List (String × List (String × Nat))) (k1 k2 : String) :
    sumAgent (d2incr a k1 k2) = sumAgent a + 1 := by
  induction a with
  | nil => simp [d2incr, sumAgent, dsum]
  | cons p rest ih =>
    obtain ⟨k', v⟩ := p
    by_cases h : k' = k1 <;> simp [d2incr, sumAgent, h, ih, dsum_dincr] <;> omega

theorem mem_keys_d2incr (a : List (String × List (String × Nat))) (k1 k2 : String) :
    ∀ k ∈ (d2incr a k1 k2).map Prod.fst, k = k1 ∨ k ∈ a.map Prod.fst := by
  induction a with
  | nil =>
    intro k hk
    simp [d2incr] at hk
    exact Or.inl hk
  | cons p rest ih =>
    obtain ⟨k', v⟩ := p
    intro k hk
    by_cases h : k' = k1
    · rw [show d2incr ((k', v) :: rest) k1 k2 =
          (k', dincr v k2) :: rest from by simp [d2incr, h]] at hk
      simp only [List.map_cons, List.mem_cons] at hk
      rcases hk with hk | hk
      · subst h
        exact Or.inr (by simp [hk])
      · exact Or.inr (by simp only [List.map_cons, List.mem_cons]; right; exact hk)
    · rw [show d2incr ((k', v) :: rest) k1 k2 =
          (k', v) :: d2incr rest k1 k2 from by simp [d2incr, h]] at hk
      simp only [List.map_cons, List.mem_cons] at hk
      rcases hk with hk | hk
      · exact Or.inr (by simp only [List.map_cons, List.mem_cons]; left; exact hk)
      · rcases ih k hk with h2 | h2
        · exact Or.inl h2
        · exact Or.inr (by simp only [List.map_cons, List.mem_cons]; right; exact h2)

/-! Window-buffer lemmas. -/

theorem pushWindow_length_le (w : Nat) (l : List Event) (e : Event)
    (h : l.length ≤ w) : (pushWindow w l e).length ≤ w := by
  unfold pushWindow
  split <;> simp_all

theorem lastN_cons {α : Type} (n : Nat) (a : α) (t : List α) (h : n ≤ t.length) :
    lastN n (a :: t) = lastN n t := by
  unfold lastN
  have hx : t.length + 1 - n = (t.length - n) + 1 := by omega
  simp [hx]

theorem lastN_length {α : Type} (n : Nat) (l : List α) (h : n ≤ l.length) :
    (lastN n l).length = n := by
  simp only [lastN, List.length_drop]
  omega

theorem foldl_pushWindow (w : Nat) (es : List Event) :
    ∀ l : List Event, l.length ≤ w →
      es.foldl (pushWindow w) l = lastN w (l ++ es) := by
  induction es with
  | nil =>
    intro l h
    simp [lastN, Nat.sub_eq_zero_of_le h]
  | cons e es ih =>
    intro l h
    rw [List.foldl_cons, ih (pushWindow w l e) (pushWindow_length_le w l e h)]
    unfold pushWindow
    split
    · rename_i hlt
      have hw : l.length = w := by
        simp at hlt
        omega
      cases l with
      | nil =>
        simp at hw
        subst hw
        simp [lastN]
      | cons a t =>
        have hlen : t.length + 1 = w := by simpa using hw
        have h1 : ((a :: t) ++ [e]).drop 1 = t ++ [e] := by simp
        rw [h1]
        have h2 : (t ++ [e]) ++ es = t ++ e :: es := by simp
        rw [h2]
        have h3 : (a :: t) ++ e :: es = a :: (t ++ e :: es) := by simp
        rw [h3, lastN_cons w a (t ++ e :: es) (by simp; omega)]
    · rw [List.append_assoc]
      rfl

theorem mem_pushWindow (w : Nat) (l : List Event) (e x : Event)
    (h : x ∈ pushWindow w l e) : x ∈ l ++ [e] := by
  unfold pushWindow at h
  split at h
  · exact List.drop_subset 1 (l ++ [e]) h
  · exact h

theorem self_mem_pushWindow (w : Nat) (l : List Event) (e : Event) (hw : 1 ≤ w) :
    e ∈ pushWindow w l e := by
  unfold pushWindow
  split
  · rename_i h
    cases l with
    | nil => simp at h; omega
    | cons a t => simp
  · simp

/-! Case analysis and projections for `process_event`. -/

theorem process_event_cases (fa ft : Option String) (p : Bool) (st : StreamState)
    (e : Event) :
    process_event fa ft p st e = st ∨ process_event fa ft p st e = accept_event st e := by
  unfold process_event
  split
  · exact Or.inl rfl
  · split
    · exact Or.inl rfl
    · split
      · exact Or.inl rfl
      · exact Or.inr rfl

theorem process_event_unfiltered (st : StreamState) (e : Event) :
    process_event none none false st e = accept_event st e := by
  simp [process_event, truthy]

theorem process_event_paused (fa ft : Option String) (st : StreamState) (e : Event) :
    process_event fa ft true st e = st := by
  simp [process_event]

theorem truthy_some (S : String) (h : S ≠ "") : truthy (some S) = true := by
  simp [truthy, h]

theorem process_event_skip_app (fa ft : Option String) (p : Bool) (st : StreamState)
    (e : Event) (hf : truthy fa = true) (h : e.app ≠ fa) :
    process_event fa ft p st e = st := by
  unfold process_event
  split
  · rfl
  · rw [if_pos ⟨hf, h⟩]

theorem process_event_accept_app (S : String) (st : StreamState) (e : Event)
    (h : e.app = some S) :
    process_event (some S) none false st e = accept_event st e := by
  unfold process_event
  rw [if_neg (by simp), if_neg (by simp [h]), if_neg (by simp [truthy])]

theorem stream_fold_proj (es : List Event) : ∀ st : StreamState,
    (es.foldl (process_event none none false) st).events =
        es.foldl (pushWindow 1000) st.events ∧
    (es.foldl (process_event none none false) st).stats = es.foldl pstats st.stats ∧
    (es.foldl (process_event none none false) st).agent_stats =
        es.foldl pastats st.agent_stats ∧
    (es.foldl (process_event none none false) st).event_queue =
        st.event_queue ++ es := by
  induction es with
  | nil => intro st; simp
  | cons e es ih =>
    intro st
    simp only [List.foldl_cons, process_event_unfiltered]
    obtain ⟨h1, h2, h3, h4⟩ := ih (accept_event st e)
    refine ⟨?_, ?_, ?_, ?_⟩
    · rw [h1]; rfl
    · rw [h2]; rfl
    · rw [h3]; rfl
    · rw [h4]
      show (st.event_queue ++ [e]) ++ es = st.event_queue ++ e :: es
      simp

theorem curses_receive_events (st : CursesState) (e : Event) :
    (curses_receive st e).events = pushWindow 500 st.events e := by
  simp only [curses_receive, update_stats, pushWindow]
  by_cases hc : 500 < (st.events ++ [e]).length
  · rw [if_pos hc, if_pos hc]
  · rw [if_neg hc, if_neg hc]

theorem curses_receive_stats (st : CursesState) (e : Event) :
    (curses_receive st e).stats = pstats st.stats e := by
  simp only [curses_receive, update_stats]
  by_cases hc : 500 < (st.events ++ [e]).length
  · rw [if_pos hc]
  · rw [if_neg hc]

theorem curses_receive_agent (st : CursesState) (e : Event) :
    (curses_receive st e).agent_stats = pastats st.agent_stats e := by
  simp only [curses_receive, update_stats]
  by_cases hc : 500 < (st.events ++ [e]).length
  · rw [if_pos hc]
  · rw [if_neg hc]

theorem curses_receive_proj (st : CursesState) (e : Event) :
    (curses_receive st e).events = pushWindow 500 st.events e ∧
    (curses_receive st e).stats = pstats st.stats e ∧
    (curses_receive st e).agent_stats = pastats st.agent_stats e :=
  ⟨curses_receive_events st e, curses_receive_stats st e, curses_receive_agent st e⟩

theorem curses_fold_proj (es : List Event) : ∀ st : CursesState,
    (es.foldl curses_receive st).events = es.foldl (pushWindow 500) st.events ∧
    (es.foldl curses_receive st).stats = es.foldl pstats st.stats ∧
    (es.foldl curses_receive st).agent_stats = es.foldl pastats st.agent_stats := by
  induction es with
  | nil => intro st; simp
  | cons e es ih =>
    intro st
    simp only [List.foldl_cons]
    obtain ⟨h1, h2, h3⟩ := ih (curses_receive st e)
    obtain ⟨p1, p2, p3⟩ := curses_receive_proj st e
    exact ⟨by rw [h1, p1], by rw [h2, p2], by rw [h3, p3]⟩

/-! Counting lemmas over folds of the stats updates. -/

theorem foldl_pstats_total (es : List Event)
    (h : ∀ e ∈ es, e.event_type.getD "unknown" ≠ "total") :
    ∀ d, dget (es.foldl pstats d) "total" = dget d "total" + es.length := by
  induction es with
  | nil => intro d; simp
  | cons e es ih =>
    intro d
    simp only [List.foldl_cons, List.length_cons]
    rw [ih (fun x hx => h x (List.mem_cons_of_mem _ hx)) (pstats d e)]
    have he : e.event_type.getD "unknown" ≠ "total" := h e (by simp)
    have hstep : dget (pstats d e) "total" = dget d "total" + 1 := by
      unfold pstats
      rw [dget_dincr_ne _ _ _ he, dget_dincr_self]
    omega

theorem pstats_total_step (d : List (String × Nat)) (e : Event) :
    dget d "total" < dget (pstats d e) "total" := by
  unfold pstats
  calc dget d "total" < dget (dincr d "total") "total" := by
        rw [dget_dincr_self]; omega
    _ ≤ dget (dincr (dincr d "total") (e.event_type.getD "unknown")) "total" :=
        dget_le_dincr _ _ _

theorem pstats_sumNT_step (d : List (String × Nat)) (e : Event)
    (he : e.event_type.getD "unknown" ≠ "total") :
    sumNT (pstats d e) = sumNT d + 1 := by
  unfold pstats
  rw [sumNT_dincr, sumNT_dincr]
  simp [he]

theorem pastats_sumAgent_step (a : List (String × List (String × Nat))) (e : Event) :
    sumAgent (pastats a e) = sumAgent a + 1 := by
  unfold pastats
  rw [sumAgent_d2incr]

/-! Consistency invariant of the three tallies. -/

theorem foldl_process_inv (fa ft : Option String) (p : Bool) (es : List Event) :
    ∀ st : StreamState,
    (∀ e ∈ es, e.event_type.getD "unknown" ≠ "total") →
    dget st.stats "total" = sumNT st.stats →
    dget st.stats "total" = sumAgent st.agent_stats →
    dget (es.foldl (process_event fa ft p) st).stats "total" =
        sumNT (es.foldl (process_event fa ft p) st).stats ∧
    dget (es.foldl (process_event fa ft p) st).stats "total" =
        sumAgent (es.foldl (process_event fa ft p) st).agent_stats := by
  induction es with
  | nil => intro st _ h1 h2; exact ⟨h1, h2⟩
  | cons e es ih =>
    intro st h h1 h2
    simp only [List.foldl_cons]
    rcases process_event_cases fa ft p st e with hc | hc <;> rw [hc]
    · exact ih st (fun x hx => h x (List.mem_cons_of_mem _ hx)) h1 h2
    · have he : e.event_type.getD "unknown" ≠ "total" := h e (by simp)
      have hstep : dget (pstats st.stats e) "total" = dget st.stats "total" + 1 := by
        unfold pstats
        rw [dget_dincr_ne _ _ _ he, dget_dincr_self]
      apply ih
      · exact fun x hx => h x (List.mem_cons_of_mem _ hx)
      · rw [show (accept_event st e).stats = pstats st.stats e from rfl,
          hstep, pstats_sumNT_step st.stats e he, h1]
      · rw [show (accept_event st e).stats = pstats st.stats e from rfl,
          show (accept_event st e).agent_stats = pastats st.agent_stats e from rfl,
          hstep, pastats_sumAgent_step, h2]

theorem foldl_curses_inv (es : List Event) :
    ∀ st : CursesState,
    (∀ e ∈ es, e.event_type.getD "unknown" ≠ "total") →
    dget st.stats "total" = sumNT st.stats →
    dget st.stats "total" = sumAgent st.agent_stats →
    dget (es.foldl curses_receive st).stats "total" =
        sumNT (es.foldl curses_receive st).stats ∧
    dget (es.foldl curses_receive st).stats "total" =
        sumAgent (es.foldl curses_receive st).agent_stats := by
  induction es with
  | nil => intro st _ h1 h2; exact ⟨h1, h2⟩
  | cons e es ih =>
    intro st h h1 h2
    simp only [List.foldl_cons]
    have he : e.event_type.getD "unknown" ≠ "total" := h e (by simp)
    have hstep : dget (pstats st.stats e) "total" = dget st.stats "total" + 1 := by
      unfold pstats
      rw [dget_dincr_ne _ _ _ he, dget_dincr_self]
    apply ih
    · exact fun x hx => h x (List.mem_cons_of_mem _ hx)
    · rw [curses_receive_stats, hstep, pstats_sumNT_step st.stats e he, h1]
    · rw [curses_receive_stats, curses_receive_agent, hstep, pastats_sumAgent_step, h2]

/-! Filter lemmas. -/

theorem stream_foldl_filter (S : String) (hS : S ≠ "") (es : List Event) :
    ∀ st : StreamState,
    es.foldl (process_event (some S) none false) st =
      (es.filter (fun e => e.app == some S)).foldl
        (process_event (some S) none false) st := by
  induction es with
  | nil => intro st; rfl
  | cons e es ih =>
    intro st
    by_cases h : e.app = some S
    · have hb : (e.app == some S) = true := by simp [h]
      simp only [List.foldl_cons, List.filter_cons, hb, if_true]
      exact ih (process_event (some S) none false st e)
    · have hb : (e.app == some S) = false := by simp [h]
      simp only [List.foldl_cons, List.filter_cons, hb, Bool.false_eq_true, if_false]
      rw [process_event_skip_app (some S) none false st e (truthy_some S hS) h]
      exact ih st

theorem stream_foldl_app_inv (S : String) (hS : S ≠ "") (es : List Event) :
    ∀ st : StreamState,
    (∀ k ∈ st.agent_stats.map Prod.fst, k = S) →
    (∀ x ∈ st.events, x.app = some S) →
    (∀ x ∈ st.event_queue, x.app = some S) →
    (∀ k ∈ (es.foldl (process_event (some S) none false) st).agent_stats.map
        Prod.fst, k = S) ∧
    (∀ x ∈ (es.foldl (process_event (some S) none false) st).events,
        x.app = some S) ∧
    (∀ x ∈ (es.foldl (process_event (some S) none false) st).event_queue,
        x.app = some S) := by
  induction es with
  | nil => intro st h1 h2 h3; exact ⟨h1, h2, h3⟩
  | cons e es ih =>
    intro st h1 h2 h3
    simp only [List.foldl_cons]
    by_cases he : e.app = some S
    · rw [process_event_accept_app S st e he]
      apply ih
      · intro k hk
        have hk2 : k ∈ (d2incr st.agent_stats (e.app.getD "unknown")
            (pyGetD e.payload "agent_type" "unknown")).map Prod.fst := hk
        rcases mem_keys_d2incr _ _ _ k hk2 with hx | hx
        · rw [he] at hx
          simpa using hx
        · exact h1 k hx
      · intro x hx
        rcases List.mem_append.mp (mem_pushWindow 1000 st.events e x hx) with hm | hm
        · exact h2 x hm
        · rw [List.mem_singleton.mp hm]
          exact he
      · intro x hx
        rcases List.mem_append.mp hx with hm | hm
        · exact h3 x hm
        · rw [List.mem_singleton.mp hm]
          exact he
    · rw [process_event_skip_app (some S) none false st e (truthy_some S hS) he]
      exact ih st h1 h2 h3

/-! Receive-loop lemma. -/

theorem recv_loop_st (fa ft : Option String) (p : Bool) (frames : List Frame) :
    ∀ ls : LoopState,
    (recv_loop fa ft p ls frames).st =
      (frames.filterMap Frame.decodedMsg).foldl (handle_message fa ft p) ls.st := by
  induction frames with
  | nil => intro ls; rfl
  | cons f fs ih =>
    intro ls
    cases f with
    | malformed raw =>
      have h1 : recv_loop fa ft p ls (Frame.malformed raw :: fs) =
          recv_loop fa ft p { ls with output := ls.output ++ [invalidMsgLine] } fs := rfl
      rw [h1, ih]
      simp [List.filterMap_cons, Frame.decodedMsg]
    | decoded m =>
      have h1 : recv_loop fa ft p ls (Frame.decoded m :: fs) =
          recv_loop fa ft p { ls with st := handle_message fa ft p ls.st m } fs := rfl
      rw [h1, ih]
      simp [List.filterMap_cons, Frame.decodedMsg]

/-! Poll-loop skip lemma. -/

theorem poll_batch_skip (iso : String → Option String)
    (pop : List (Option Nat) → List (Option Nat)) (st : PollState) (e : Event)
    (rest : List Event) (h : e.eid ∈ st.seen_ids) :
    poll_batch iso pop st (e :: rest) = poll_batch iso pop st rest := by
  simp [poll_batch, h]

theorem foldl_pstats_evT (n : Nat) : ∀ d : List (String × Nat),
    dget ((List.replicate n evT).foldl pstats d) "total" = dget d "total" + 2 * n := by
  induction n with
  | zero => intro d; simp
  | succ n ih =>
    intro d
    simp only [List.replicate_succ, List.foldl_cons]
    rw [ih (pstats d evT)]
    have hstep : dget (pstats d evT) "total" = dget d "total" + 2 := by
      unfold pstats
      rw [show evT.event_type.getD "unknown" = "total" from rfl,
        dget_dincr_self, dget_dincr_self]
    omega

theorem pySlice_length (s : List Char) (n : Int) (h : 0 ≤ n) :
    (pySlice s n).length = min n.toNat s.length := by
  simp [pySlice, not_lt.mpr h]

/-! Claim theorems. -/

/-- C1 counterexample: a sequence of 1001 accepted events, each carrying
`event_type = "total"`.  The claim asserts `stats["total"]` then equals 1001,
but the code yields 2002: `stats[event.get("event_type", "unknown")] += 1`
hits the same `"total"` key as the running total for every such event. -/
theorem C1_counterexample :
    1000 < (List.replicate 1001 evT).length ∧
    dget ((List.replicate 1001 evT).foldl (process_event none none false)
        initStream).stats "total" ≠ (List.replicate 1001 evT).length := by
  constructor
  · simp only [List.length_replicate]
    omega
  · obtain ⟨_, p2, _, _⟩ := stream_fold_proj (List.replicate 1001 evT) initStream
    rw [p2, show initStream.stats = ([] : List (String × Nat)) from rfl,
      foldl_pstats_evT 1001 []]
    simp only [List.length_replicate, dget]
    omega

/-- C1 (amended): for every sequence of N accepted events with N greater than
the window size W (W = 1000 for the append-log viewer, W = 500 for the curses
viewer), the recent buffer `self.events` contains exactly the last W events
in arrival order with the oldest evicted first; and provided no accepted
event's `event_type` is the literal string `"total"`, `stats["total"]`
equals N regardless of W. -/
theorem C1_window_and_total (es fs : List Event)
    (h1 : 1000 < es.length)
    (h3 : 500 < fs.length) :
    (es.foldl (process_event none none false) initStream).events = lastN 1000 es ∧
    (es.foldl (process_event none none false) initStream).events.length = 1000 ∧
    (fs.foldl curses_receive initCurses).events = lastN 500 fs ∧
    (fs.foldl curses_receive initCurses).events.length = 500 ∧
    ((∀ e ∈ es, e.event_type.getD "unknown" ≠ "total") →
      dget (es.foldl (process_event none none false) initStream).stats "total" =
        es.length) ∧
    ((∀ e ∈ fs, e.event_type.getD "unknown" ≠ "total") →
      dget (fs.foldl curses_receive initCurses).stats "total" = fs.length) := by
  obtain ⟨p1, p2, _, _⟩ := stream_fold_proj es initStream
  obtain ⟨q1, q2, _⟩ := curses_fold_proj fs initCurses
  have e1 : (es.foldl (process_event none none false) initStream).events =
      lastN 1000 es := by
    rw [p1, show initStream.events = ([] : List Event) from rfl,
      foldl_pushWindow 1000 es [] (by simp), List.nil_append]
  have e4 : (fs.foldl curses_receive initCurses).events = lastN 500 fs := by
    rw [q1, show initCurses.events = ([] : List Event) from rfl,
      foldl_pushWindow 500 fs [] (by simp), List.nil_append]
  refine ⟨e1, ?_, e4, ?_, ?_, ?_⟩
  · rw [e1]
    exact lastN_length 1000 es (by omega)
  · rw [e4]
    exact lastN_length 500 fs (by omega)
  · intro h2
    rw [p2, show initStream.stats = ([] : List (String × Nat)) from rfl,
      foldl_pstats_total es h2 []]
    simp [dget]
  · intro h4
    rw [q2, show initCurses.stats = ([] : List (String × Nat)) from rfl,
      foldl_pstats_total fs h4 []]
    simp [dget]

/-- Witness for C1 (amended) at 1001 empty events for the append-log viewer
and 501 for the curses viewer. -/
theorem C1_window_and_total_witness :
    (1000 < (List.replicate 1001 evEmpty).length ∧
     500 < (List.replicate 501 evEmpty).length) ∧
    (((List.replicate 1001 evEmpty).foldl (process_event none none false)
        initStream).events = lastN 1000 (List.replicate 1001 evEmpty) ∧
     ((List.replicate 1001 evEmpty).foldl (process_event none none false)
        initStream).events.length = 1000 ∧
     ((List.replicate 501 evEmpty).foldl curses_receive initCurses).events =
        lastN 500 (List.replicate 501 evEmpty) ∧
     ((List.replicate 501 evEmpty).foldl curses_receive initCurses).events.length =
        500 ∧
     ((∀ e ∈ List.replicate 1001 evEmpty, e.event_type.getD "unknown" ≠ "total") →
      dget ((List.replicate 1001 evEmpty).foldl (process_event none none false)
        initStream).stats "total" = (List.replicate 1001 evEmpty).length) ∧
     ((∀ e ∈ List.replicate 501 evEmpty, e.event_type.getD "unknown" ≠ "total") →
      dget ((List.replicate 501 evEmpty).foldl curses_receive initCurses).stats
        "total" = (List.replicate 501 evEmpty).length)) :=
  ⟨⟨by simp only [List.length_replicate]; omega,
    by simp only [List.length_replicate]; omega⟩,
   C1_window_and_total (List.replicate 1001 evEmpty) (List.replicate 501 evEmpty)
     (by simp only [List.length_replicate]; omega)
     (by simp only [List.length_replicate]; omega)⟩

/-- C10 counterexample: processing the single event with
`event_type = "total"` leaves `stats = [("total", 2)]`, so `stats["total"]`
is 2 while the sum of the non-`"total"` counters is 0. -/
theorem C10_counterexample :
    dget (process_event none none false initStream evT).stats "total" ≠
      sumNT (process_event none none false initStream evT).stats := by
  decide

/-- C10 (amended): after every sequence of processed events starting from the
empty aggregate state, provided no event's `event_type` (defaulted to
`"unknown"` when missing) is the literal string `"total"`, `stats["total"]`
equals the sum of the per-type counters and equals the sum of all counts
nested in `agent_stats` — in the append-log viewer under any filter/pause
configuration, and in the curses viewer. -/
theorem C10_tallies_agree (es : List Event)
    (h : ∀ e ∈ es, e.event_type.getD "unknown" ≠ "total") :
    (∀ fa ft p,
      dget (es.foldl (process_event fa ft p) initStream).stats "total" =
        sumNT (es.foldl (process_event fa ft p) initStream).stats ∧
      dget (es.foldl (process_event fa ft p) initStream).stats "total" =
        sumAgent (es.foldl (process_event fa ft p) initStream).agent_stats) ∧
    (dget (es.foldl curses_receive initCurses).stats "total" =
        sumNT (es.foldl curses_receive initCurses).stats ∧
     dget (es.foldl curses_receive initCurses).stats "total" =
        sumAgent (es.foldl curses_receive initCurses).agent_stats) :=
  ⟨fun fa ft p => foldl_process_inv fa ft p es initStream h rfl rfl,
   foldl_curses_inv es initCurses h rfl rfl⟩

/-- Witness for C10 (amended) at a single field-less event. -/
theorem C10_tallies_agree_witness :
    (∀ e ∈ [evEmpty], e.event_type.getD "unknown" ≠ "total") ∧
    ((∀ fa ft p,
      dget ([evEmpty].foldl (process_event fa ft p) initStream).stats "total" =
        sumNT ([evEmpty].foldl (process_event fa ft p) initStream).stats ∧
      dget ([evEmpty].foldl (process_event fa ft p) initStream).stats "total" =
        sumAgent ([evEmpty].foldl (process_event fa ft p) initStream).agent_stats) ∧
    (dget ([evEmpty].foldl curses_receive initCurses).stats "total" =
        sumNT ([evEmpty].foldl curses_receive initCurses).stats ∧
     dget ([evEmpty].foldl curses_receive initCurses).stats "total" =
        sumAgent ([evEmpty].foldl curses_receive initCurses).agent_stats)) :=
  ⟨by decide, C10_tallies_agree [evEmpty] (by decide)⟩

/-- C2: processing a stream drawn from sources S and T (T ≠ S) with an active
source filter equal to the exact, case-sensitive string S (active means
non-empty: Python truthiness makes an empty filter string match everything)
yields a state whose `agent_stats` has no entry keyed T, whose recent buffer
and display queue contain no event from T, and which equals the state obtained
from the S-events alone — no counter counts any event from T; and an absent
filter criterion accepts every event unconditionally. -/
theorem C2_source_filter (S T : String) (es : List Event)
    (hS : S ≠ "") (hT : T ≠ S)
    (_hst : ∀ e ∈ es, e.app = some S ∨ e.app = some T) :
    (∀ k ∈ (es.foldl (process_event (some S) none false) initStream).agent_stats.map
        Prod.fst, k ≠ T) ∧
    (∀ x ∈ (es.foldl (process_event (some S) none false) initStream).events,
        x.app ≠ some T) ∧
    (∀ x ∈ (es.foldl (process_event (some S) none false) initStream).event_queue,
        x.app ≠ some T) ∧
    es.foldl (process_event (some S) none false) initStream =
      (es.filter (fun e => e.app == some S)).foldl
        (process_event (some S) none false) initStream ∧
    (∀ st e, process_event none none false st e = accept_event st e) := by
  obtain ⟨i1, i2, i3⟩ := stream_foldl_app_inv S hS es initStream
    (by intro k hk; simp [initStream] at hk)
    (by intro x hx; simp [initStream] at hx)
    (by intro x hx; simp [initStream] at hx)
  refine ⟨?_, ?_, ?_, stream_foldl_filter S hS es initStream,
    fun st e => process_event_unfiltered st e⟩
  · intro k hk
    rw [i1 k hk]
    exact Ne.symm hT
  · intro x hx
    rw [i2 x hx]
    intro hc
    exact hT (Option.some.inj hc).symm
  · intro x hx
    rw [i3 x hx]
    intro hc
    exact hT (Option.some.inj hc).symm

/-- Witness for C2 at S = "A", T = "B" and the two-event stream [eA, eB]. -/
theorem C2_source_filter_witness :
    (("A" : String) ≠ "" ∧ ("B" : String) ≠ "A" ∧
     (∀ e ∈ [eA, eB], e.app = some "A" ∨ e.app = some "B")) ∧
    ((∀ k ∈ ([eA, eB].foldl (process_event (some "A") none false)
        initStream).agent_stats.map Prod.fst, k ≠ "B") ∧
     (∀ x ∈ ([eA, eB].foldl (process_event (some "A") none false)
        initStream).events, x.app ≠ some "B") ∧
     (∀ x ∈ ([eA, eB].foldl (process_event (some "A") none false)
        initStream).event_queue, x.app ≠ some "B") ∧
     [eA, eB].foldl (process_event (some "A") none false) initStream =
       ([eA, eB].filter (fun e => e.app == some "A")).foldl
         (process_event (some "A") none false) initStream ∧
     (∀ st e, process_event none none false st e = accept_event st e)) :=
  ⟨⟨by decide, by decide, by decide⟩,
   C2_source_filter "A" "B" [eA, eB] (by decide) (by decide) (by decide)⟩

/-- C3 counterexample: an event arriving while pause is on is dropped by
`process_event` — `stats["total"]` stays 0 and nothing is queued for display,
contradicting the claimed receive-and-queue-while-paused behaviour. -/
theorem C3_counterexample :
    dget (process_event none none true initStream evEmpty).stats "total" = 0 ∧
    (process_event none none true initStream evEmpty).event_queue = [] := by
  decide

/-- C3 (amended): in the append-log viewer, `process_event` returns
immediately while paused, so events arriving while paused are lost — no
counter increases, nothing is queued, nothing enters the recent buffer.  In
the curses viewer the receive loop ignores the pause flag, so events arriving
while paused are still counted: `stats["total"]` strictly increases. -/
theorem C3_pause_drops_events :
    (∀ fa ft st e, process_event fa ft true st e = st) ∧
    (∀ st e, dget st.stats "total" < dget (curses_receive st e).stats "total") := by
  constructor
  · exact fun fa ft st e => process_event_paused fa ft st e
  · intro st e
    rw [curses_receive_stats]
    exact pstats_total_step st.stats e

/-- C4 counterexample: the diagnostic for a malformed frame is written by
`print(...)` to standard output — the very channel the display thread prints
events to — not to an error channel distinct from the event display. -/
theorem C4_counterexample :
    (recv_step none none false initLoop (Frame.malformed "not json")).output.map
      Prod.fst = [displayThreadChan] := by
  decide

/-- C4 (amended): a frame that fails JSON decoding leaves the stream state
(counters, recent buffer, display queue) unchanged and prints the
"Invalid message received" diagnostic to standard output (the same stream the
event display uses); the connection is not terminated, and over any frame
sequence the resulting state equals that of folding the decoded messages
alone — subsequent valid frames are processed normally. -/
theorem C4_malformed_frame (fa ft : Option String) (p : Bool) (ls : LoopState)
    (raw : String) (frames : List Frame) :
    (recv_step fa ft p ls (Frame.malformed raw)).st = ls.st ∧
    (recv_step fa ft p ls (Frame.malformed raw)).output =
      ls.output ++ [invalidMsgLine] ∧
    invalidMsgLine.1 = Chan.stdout ∧
    (recv_loop fa ft p ls frames).st =
      (frames.filterMap Frame.decodedMsg).foldl (handle_message fa ft p) ls.st :=
  ⟨rfl, rfl, rfl, recv_loop_st fa ft p frames ls⟩

/-- C5 counterexample: the field-less record (missing timestamp, source and
category) is not rejected — `process_event` counts it and appends it to the
recent buffer. -/
theorem C5_counterexample :
    dget (process_event none none false initStream evEmpty).stats "total" = 1 ∧
    (process_event none none false initStream evEmpty).events = [evEmpty] := by
  decide

/-- C5 (amended): `process_event` performs no validation: any record — in
particular one whose timestamp is missing or unparsable — is accepted, the
total strictly increases, the event lands in the recent buffer, and the
missing source and category are silently defaulted to "unknown" in the
counters; the timestamp failure surfaces only later, when `format_event`
raises while rendering the event. -/
theorem C5_no_validation (st : StreamState) (e : Event)
    (iso : String → Option String) (sd : Bool)
    (hts : iso (e.timestamp.getD "") = none) :
    dget st.stats "total" < dget (process_event none none false st e).stats "total" ∧
    e ∈ (process_event none none false st e).events ∧
    (process_event none none false st e).stats =
      dincr (dincr st.stats "total") (e.event_type.getD "unknown") ∧
    (process_event none none false st e).agent_stats =
      d2incr st.agent_stats (e.app.getD "unknown")
        (pyGetD e.payload "agent_type" "unknown") ∧
    format_event iso sd e = none := by
  rw [process_event_unfiltered]
  refine ⟨?_, ?_, rfl, rfl, ?_⟩
  · exact pstats_total_step st.stats e
  · exact self_mem_pushWindow 1000 st.events e (by omega)
  · simp [format_event, hts]

/-- Witness for C5 (amended) at the field-less record and the always-failing
timestamp renderer. -/
theorem C5_no_validation_witness :
    isoNone (evEmpty.timestamp.getD "") = none ∧
    (dget initStream.stats "total" <
      dget (process_event none none false initStream evEmpty).stats "total" ∧
     evEmpty ∈ (process_event none none false initStream evEmpty).events ∧
     (process_event none none false initStream evEmpty).stats =
       dincr (dincr initStream.stats "total") (evEmpty.event_type.getD "unknown") ∧
     (process_event none none false initStream evEmpty).agent_stats =
       d2incr initStream.agent_stats (evEmpty.app.getD "unknown")
         (pyGetD evEmpty.payload "agent_type" "unknown") ∧
     format_event isoNone false evEmpty = none) :=
  ⟨rfl, C5_no_validation initStream evEmpty isoNone false rfl⟩

/-- C6 counterexample: two id-less events in one batch share the dedup key
`None`, so the second one is de-duplicated — it is neither displayed nor
counted — although the claim says an event with no identifier is never
de-duplicated. -/
theorem C6_counterexample :
    (poll_batch isoT popAny initPoll [en1, en2]).displayed = [en1] ∧
    en2 ∉ (poll_batch isoT popAny initPoll [en1, en2]).displayed := by
  decide

/-- C6 (amended): in the polling viewer an event whose dedup key —
`event.get('id')`, which is `None` when the id is absent — is currently in
the `seen_ids` set is skipped entirely: not displayed and not counted.
Id-less events therefore de-duplicate against each other via the shared key
`None`, and because `seen_ids` is capped at 100 entries by arbitrary
`set.pop()` eviction, de-duplication is only guaranteed while the key
remains in the set. -/
theorem C6_dedup_by_seen (iso : String → Option String)
    (pop : List (Option Nat) → List (Option Nat)) (st : PollState) (e : Event)
    (rest : List Event) (h : e.eid ∈ st.seen_ids) :
    poll_batch iso pop st (e :: rest) = poll_batch iso pop st rest :=
  poll_batch_skip iso pop st e rest h

/-- Witness for C6 (amended): id 5 is already seen, so the event carrying it
is skipped. -/
theorem C6_dedup_by_seen_witness :
    e5.eid ∈ pollSeen5.seen_ids ∧
    poll_batch isoT popAny pollSeen5 [e5] = poll_batch isoT popAny pollSeen5 [] :=
  ⟨by decide, C6_dedup_by_seen isoT popAny pollSeen5 e5 [] (by decide)⟩

/-- C7: handling one backfill message of type "init" carrying the events
e1 … en produces exactly the same state — recent buffer, counters and
display queue — as handling n successive live messages of type "event"
carrying e1 … en in order: both paths fold `process_event`. -/
theorem C7_backfill_equals_live (fa ft : Option String) (p : Bool)
    (st : StreamState) (es : List Event) :
    handle_message fa ft p st (Message.init es) =
      (es.map Message.event).foldl (handle_message fa ft p) st := by
  show es.foldl (process_event fa ft p) st = _
  induction es generalizing st with
  | nil => rfl
  | cons e es ih =>
    simp only [List.map_cons, List.foldl_cons]
    exact ih (process_event fa ft p st e)

/-- C8: when an event's `agent_type` and `event_type` are absent from the
static lookup tables, formatting and drawing never fail on that account: the
color lookup falls back to `AGENT_COLORS["unknown"]`, the icon lookup to the
default glyph, the curses color map to pair 7, and `format_event` still
produces a line whenever the timestamp renders. -/
theorem C8_unknown_key_defaults (e : Event) (iso : String → Option String)
    (t : String) (sd : Bool)
    (hts : iso (e.timestamp.getD "") = some t)
    (hc : pyGet AGENT_COLORS (pyGetD e.payload "agent_type" "unknown") = none)
    (hi : pyGet EVENT_TYPE_ICONS (e.event_type.getD "unknown") = none)
    (hm : pyGet color_map (pyGetD e.payload "agent_type" "unknown") = none) :
    (format_event iso sd e).isSome = true ∧
    pyGetD AGENT_COLORS (pyGetD e.payload "agent_type" "unknown")
        (pyGetD AGENT_COLORS "unknown" "") = "\u001b[37m" ∧
    pyGetD EVENT_TYPE_ICONS (e.event_type.getD "unknown") "📝" = "📝" ∧
    cursesColor (pyGetD e.payload "agent_type" "unknown") = 7 := by
  refine ⟨?_, ?_, ?_, ?_⟩
  · simp [format_event, hts]
  · rw [pyGetD, hc]
    rfl
  · rw [pyGetD, hi]
    rfl
  · rw [cursesColor, pyGetD, hm]
    rfl

/-- Witness for C8 at an event with unknown `event_type` "mystery" and
unknown `agent_type` "zzz". -/
theorem C8_unknown_key_defaults_witness :
    (isoT (eMystery.timestamp.getD "") = some "00:00:00" ∧
     pyGet AGENT_COLORS (pyGetD eMystery.payload "agent_type" "unknown") = none ∧
     pyGet EVENT_TYPE_ICONS (eMystery.event_type.getD "unknown") = none ∧
     pyGet color_map (pyGetD eMystery.payload "agent_type" "unknown") = none) ∧
    ((format_event isoT false eMystery).isSome = true ∧
     pyGetD AGENT_COLORS (pyGetD eMystery.payload "agent_type" "unknown")
         (pyGetD AGENT_COLORS "unknown" "") = "\u001b[37m" ∧
     pyGetD EVENT_TYPE_ICONS (eMystery.event_type.getD "unknown") "📝" = "📝" ∧
     cursesColor (pyGetD eMystery.payload "agent_type" "unknown") = 7) :=
  ⟨⟨by decide, by decide, by decide, by decide⟩,
   C8_unknown_key_defaults eMystery isoT "00:00:00" false (by decide) (by decide)
     (by decide) (by decide)⟩

/-- C9 counterexample: at terminal width 3 the claim's bound fails — the
slice index `width - 4` is negative, so `line[:width-4] + "..."` grows rather
than truncates, and the emitted line is longer than `width - 1`. -/
theorem C9_counterexample :
    ¬ ((draw_ui_line ("00:00:00".data) evEmpty 3).length ≤ 3 - 1) := by
  decide

/-- C9 (amended): in dashboard mode, for every event and every terminal width
of at least 4, the emitted line's length never exceeds `width - 1`, and
whenever the final truncation fired the line ends with the ellipsis "...". -/
theorem C9_truncation (tstr : List Char) (e : Event) (width : Nat)
    (hw : 4 ≤ width) :
    (draw_ui_line tstr e width).length ≤ width - 1 ∧
    (((draw_ui_line_pre tstr e width).length : Int) > (width : Int) - 1 →
      ∃ p, draw_ui_line tstr e width = p ++ ("...".data)) := by
  simp only [draw_ui_line]
  by_cases hc : ((draw_ui_line_pre tstr e width).length : Int) > (width : Int) - 1
  · rw [if_pos hc]
    constructor
    · have h4 : (0 : Int) ≤ (width : Int) - 4 := by omega
      rw [List.length_append, pySlice_length _ _ h4]
      have ht : ((width : Int) - 4).toNat = width - 4 := by omega
      have h3 : ("...".data).length = 3 := rfl
      rw [ht, h3]
      have hmin : min (width - 4) (draw_ui_line_pre tstr e width).length ≤
          width - 4 := min_le_left _ _
      omega
    · intro _
      exact ⟨pySlice (draw_ui_line_pre tstr e width) ((width : Int) - 4), rfl⟩
  · rw [if_neg hc]
    constructor
    · omega
    · intro h
      exact absurd h hc

/-- Witness for C9 (amended) at width 80. -/
theorem C9_truncation_witness :
    4 ≤ 80 ∧
    ((draw_ui_line ("00:00:00".data) evEmpty 80).length ≤ 80 - 1 ∧
     (((draw_ui_line_pre ("00:00:00".data) evEmpty 80).length : Int) >
        (80 : Int) - 1 →
      ∃ p, draw_ui_line ("00:00:00".data) evEmpty 80 = p ++ ("...".data))) :=
  ⟨by decide, C9_truncation ("00:00:00".data) evEmpty 80 (by decide)⟩

end EzAigents
